import Mathlib

/-!
Verification of the transfer orchestration and verification subsystem
(scripts/gdc/gdc_download.py): manifest parsing, expected-path layout,
completion counting, post-run verification, progress-line rendering and
the orchestrator's exit-code logic, embedded shallowly in Lean.

Filesystem states are modelled as partial maps from paths (lists of
components) to file sizes in bytes: `none` means the path does not exist,
`some n` means it exists with size `n`.
-/

namespace GdcDownload

/-- A filesystem path, as a list of components. -/
abbrev FsPath := List String

/-- A filesystem state: maps an existing path to its size in bytes. -/
abbrev FS := FsPath → Option Nat

/-- One manifest row, as built by `_read_manifest`. -/
structure ManifestRow where
  id : String
  filename : String
deriving DecidableEq, Repr

/-- Splits a character list on a separator character, modelling Python's
`str.split(sep)` for a one-character separator: the empty string yields
one empty field, and `n` separators yield `n + 1` fields. -/
def splitSepChars (sep : Char) : List Char → List (List Char)
  | [] => [[]]
  | c :: cs =>
    match splitSepChars sep cs with
    | [] => if c = sep then [[], []] else [[c]]
    | g :: gs => if c = sep then [] :: g :: gs else (c :: g) :: gs

/-- Python `line.split("\t")`. -/
def splitTab (s : String) : List String :=
  (splitSepChars '\t' s.data).map String.mk

/-- Python `str.lower` on one character (ASCII case, which is all the
fixed keywords use). -/
def lowerChar (c : Char) : Char :=
  if 65 ≤ c.toNat ∧ c.toNat ≤ 90 then Char.ofNat (c.toNat + 32) else c

/-- Python `s.lower()`. -/
def strLower (s : String) : String :=
  String.mk (s.data.map lowerChar)

/-- Whether `pat` occurs at the start of `hay`. -/
def startsWithChars : List Char → List Char → Bool
  | [], _ => true
  | _ :: _, [] => false
  | p :: ps, c :: cs => p = c && startsWithChars ps cs

/-- Whether `pat` occurs as a contiguous run anywhere in `hay`,
modelling Python's `pat in hay`. -/
def containsChars (pat : List Char) : List Char → Bool
  | [] => startsWithChars pat []
  | c :: cs => startsWithChars pat (c :: cs) || containsChars pat cs

/-- Python `pat in s` on strings. -/
def strContains (s pat : String) : Bool :=
  containsChars pat.data s.data

/-- Python `s[:n]` (first `n` characters). -/
def strTake (s : String) (n : Nat) : String :=
  String.mk (s.data.take n)

/-- `_read_manifest`, per data line: split on tabs, skip the line when it
has fewer than two fields, otherwise keep the first two fields as a row. -/
def parseLine (line : String) : Option ManifestRow :=
  match splitTab line with
  | p0 :: p1 :: _ => some ⟨p0, p1⟩
  | _ => none

/-- `_read_manifest`: the manifest file as a list of newline-stripped
lines.  The first line is the header; it is rejected unless its first two
tab-separated fields are exactly `id` and `filename`.  Remaining lines
are parsed by `parseLine`, malformed ones being dropped. -/
def read_manifest (lines : List String) : Except String (List ManifestRow) :=
  let header := splitTab (lines.headD "")
  if header.take 2 = ["id", "filename"] then
    Except.ok (lines.tail.filterMap parseLine)
  else
    Except.error "Manifest header must be: id<tab>filename"

/-- Whether parsing rejected its input (the Python code raises SystemExit
there). -/
def isErr {ε α : Type} : Except ε α → Bool
  | Except.error _ => true
  | Except.ok _ => false

/-- `_expected_path`: gdc-client stores each file under
`out_dir/file_id/filename`. -/
def expected_path (out_dir : FsPath) (file_id filename : String) : FsPath :=
  out_dir ++ [file_id, filename]

/-- Verification status of one manifest row. -/
inductive Status where
  | OK
  | MISSING
  | EMPTY
deriving DecidableEq, Repr

/-- The per-row classification performed inside `_verify_download`:
absent path is MISSING, zero-size file is EMPTY, anything else is OK. -/
def classify (fs : FS) (out_dir : FsPath) (r : ManifestRow) : Status :=
  match fs (expected_path out_dir r.id r.filename) with
  | none => Status.MISSING
  | some 0 => Status.EMPTY
  | some (_ + 1) => Status.OK

/-- `_verify_download`: walks the rows once, accumulating the
`(ok, missing, empty)` counters exactly as the Python loop does. -/
def verify_download (rows : List ManifestRow) (out_dir : FsPath) (fs : FS) :
    Nat × Nat × Nat :=
  rows.foldl
    (fun acc r =>
      match fs (expected_path out_dir r.id r.filename) with
      | none => (acc.1, acc.2.1 + 1, acc.2.2)
      | some 0 => (acc.1, acc.2.1, acc.2.2 + 1)
      | some (_ + 1) => (acc.1 + 1, acc.2.1, acc.2.2))
    (0, 0, 0)

/-- `_count_completed`: number of rows whose expected path exists. -/
def count_completed (rows : List ManifestRow) (out_dir : FsPath) (fs : FS) : Nat :=
  rows.foldl
    (fun done r =>
      if (fs (expected_path out_dir r.id r.filename)).isSome then done + 1 else done)
    0

/-- The fixed keyword list tested against the most recent drained output
line (`main`, progress loop). -/
def interesting_keywords : List String :=
  ["download", "error", "retry", "complete", "saved", "skipping"]

/-- The `tail_short` fragment of the rendered progress line: an excerpt
of the most recent drained line, shown only when the line is nonempty and
its lowercased text contains one of the fixed keywords, truncated to 120
characters. -/
def tail_short (tail : String) : String :=
  if tail ≠ "" ∧ (interesting_keywords.any fun k => strContains (strLower tail) k) = true then
    " | last: " ++ strTake tail 120
  else
    ""

/-- Side effects performed by `main` before (and including) spawning the
child process. -/
inductive Event where
  | mkdirOut
  | mkdirLog
  | spawnChild
deriving DecidableEq, Repr

/-- Outcome of the pre-spawn phase of `main`. -/
inductive PreSpawn where
  | configError
  | spawned (rows : List ManifestRow)
deriving DecidableEq, Repr

/-- The pre-spawn phase of `main`: create the output and log directories,
read the manifest, abort on a parse error or an empty manifest, otherwise
spawn the child.  Returns the ordered side effects together with the
outcome. -/
def pre_spawn (manifestLines : List String) : List Event × PreSpawn :=
  let evs := [Event.mkdirOut, Event.mkdirLog]
  match read_manifest manifestLines with
  | Except.error _ => (evs, PreSpawn.configError)
  | Except.ok rows =>
    if rows.length = 0 then (evs, PreSpawn.configError)
    else (evs ++ [Event.spawnChild], PreSpawn.spawned rows)

/-- The tail of `main` after the child process has been waited on: on a
non-zero child exit code that code is returned at once and no
verification runs; otherwise, when requested, verification runs and its
counts gate the exit code.  The second component is the verification
result when a report was produced. -/
def finish (returncode : Int) (verify_after fail_on_verify : Bool)
    (rows : List ManifestRow) (out_dir : FsPath) (fs : FS) :
    Int × Option (Nat × Nat × Nat) :=
  if returncode ≠ 0 then
    (returncode, none)
  else if verify_after then
    let res := verify_download rows out_dir fs
    if (0 < res.2.1 ∨ 0 < res.2.2) ∧ fail_on_verify = true then (2, some res)
    else (0, some res)
  else
    (0, none)

/-! ### Helper lemmas -/

lemma count_completed_go (out_dir : FsPath) (fs : FS) (rows : List ManifestRow)
    (n : Nat) :
    rows.foldl
      (fun done r =>
        if (fs (expected_path out_dir r.id r.filename)).isSome then done + 1 else done)
      n
      = n + rows.countP (fun r => (fs (expected_path out_dir r.id r.filename)).isSome) := by
  induction rows generalizing n with
  | nil => simp
  | cons r rs ih =>
    cases h : (fs (expected_path out_dir r.id r.filename)).isSome
    · simp [List.foldl_cons, ih, List.countP_cons, h]
    · simp [List.foldl_cons, ih, List.countP_cons, h]
      omega

lemma count_completed_eq (rows : List ManifestRow) (out_dir : FsPath) (fs : FS) :
    count_completed rows out_dir fs
      = rows.countP (fun r => (fs (expected_path out_dir r.id r.filename)).isSome) := by
  simpa using count_completed_go out_dir fs rows 0

lemma verify_download_go (out_dir : FsPath) (fs : FS) (rows : List ManifestRow)
    (acc : Nat × Nat × Nat) :
    rows.foldl
      (fun acc r =>
        match fs (expected_path out_dir r.id r.filename) with
        | none => (acc.1, acc.2.1 + 1, acc.2.2)
        | some 0 => (acc.1, acc.2.1, acc.2.2 + 1)
        | some (_ + 1) => (acc.1 + 1, acc.2.1, acc.2.2))
      acc
      = (acc.1 + rows.countP (fun r => decide (classify fs out_dir r = Status.OK)),
         acc.2.1 + rows.countP (fun r => decide (classify fs out_dir r = Status.MISSING)),
         acc.2.2 + rows.countP (fun r => decide (classify fs out_dir r = Status.EMPTY))) := by
  induction rows generalizing acc with
  | nil => simp
  | cons r rs ih =>
    simp only [List.foldl_cons, List.countP_cons]
    cases h : fs (expected_path out_dir r.id r.filename) with
    | none =>
      simp only [ih, classify, h]
      simp; omega
    | some n =>
      cases n with
      | zero =>
        simp only [ih, classify, h]
        simp; omega
      | succ m =>
        simp only [ih, classify, h]
        simp; omega

lemma verify_download_eq (rows : List ManifestRow) (out_dir : FsPath) (fs : FS) :
    verify_download rows out_dir fs
      = (rows.countP (fun r => decide (classify fs out_dir r = Status.OK)),
         rows.countP (fun r => decide (classify fs out_dir r = Status.MISSING)),
         rows.countP (fun r => decide (classify fs out_dir r = Status.EMPTY))) := by
  simpa [verify_download] using verify_download_go out_dir fs rows (0, 0, 0)

lemma countP_classes (out_dir : FsPath) (fs : FS) (rows : List ManifestRow) :
    rows.countP (fun r => (fs (expected_path out_dir r.id r.filename)).isSome)
      = rows.countP (fun r => decide (classify fs out_dir r = Status.OK))
        + rows.countP (fun r => decide (classify fs out_dir r = Status.EMPTY))
  ∧ rows.countP (fun r => decide (classify fs out_dir r = Status.OK))
      + rows.countP (fun r => decide (classify fs out_dir r = Status.MISSING))
      + rows.countP (fun r => decide (classify fs out_dir r = Status.EMPTY))
      = rows.length := by
  induction rows with
  | nil => simp
  | cons r rs ih =>
    obtain ⟨ih1, ih2⟩ := ih
    simp only [List.countP_cons, List.length_cons]
    cases h : fs (expected_path out_dir r.id r.filename) with
    | none =>
      have hc : classify fs out_dir r = Status.MISSING := by simp [classify, h]
      constructor <;> simp [hc, h] <;> omega
    | some n =>
      cases n with
      | zero =>
        have hc : classify fs out_dir r = Status.EMPTY := by simp [classify, h]
        constructor <;> simp [hc, h] <;> omega
      | succ m =>
        have hc : classify fs out_dir r = Status.OK := by simp [classify, h]
        constructor <;> simp [hc, h] <;> omega

/-! ### Claim theorems -/

/-- Claim C1: for every manifest row and filesystem state, the Verifier
classifies the row's expected path as MISSING exactly when the path does
not exist, EMPTY exactly when it exists with size zero, and OK exactly
when it exists with nonzero size (regardless of content), and
`verify_download` returns the triple (ok, missing, empty) counting the
rows in each class. -/
theorem verifier_classification (fs : FS) (out_dir : FsPath) (r : ManifestRow)
    (rows : List ManifestRow) :
    (classify fs out_dir r = Status.MISSING ↔
       fs (expected_path out_dir r.id r.filename) = none)
  ∧ (classify fs out_dir r = Status.EMPTY ↔
       fs (expected_path out_dir r.id r.filename) = some 0)
  ∧ (classify fs out_dir r = Status.OK ↔
       ∃ n, fs (expected_path out_dir r.id r.filename) = some n ∧ n ≠ 0)
  ∧ verify_download rows out_dir fs
      = (rows.countP (fun x => decide (classify fs out_dir x = Status.OK)),
         rows.countP (fun x => decide (classify fs out_dir x = Status.MISSING)),
         rows.countP (fun x => decide (classify fs out_dir x = Status.EMPTY))) := by
  refine ⟨?_, ?_, ?_, verify_download_eq rows out_dir fs⟩ <;>
    · unfold classify
      cases h : fs (expected_path out_dir r.id r.filename) with
      | none => simp
      | some n => cases n <;> simp

/-- Claim C9: for a fixed list of manifest rows, `count_completed` is
monotone in the filesystem state: if every path existing in `fs1` also
exists in `fs2`, the completion count under `fs1` is at most the count
under `fs2`. -/
theorem count_completed_monotone (rows : List ManifestRow) (out_dir : FsPath)
    (fs1 fs2 : FS)
    (h : ∀ p, (fs1 p).isSome = true → (fs2 p).isSome = true) :
    count_completed rows out_dir fs1 ≤ count_completed rows out_dir fs2 := by
  rw [count_completed_eq, count_completed_eq]
  exact List.countP_mono_left fun r _ hr => h _ hr

/-- Witness for C9 at a concrete pair of filesystem states. -/
theorem count_completed_monotone_witness :
    count_completed [⟨"a", "f.txt"⟩, ⟨"b", "g.txt"⟩] ["root"] (fun _ => none)
      ≤ count_completed [⟨"a", "f.txt"⟩, ⟨"b", "g.txt"⟩] ["root"] (fun _ => some 1) :=
  count_completed_monotone _ _ _ _ (fun _ _ => rfl)

/-- Claim C10: for every list of manifest rows and fixed filesystem state,
the completion count equals ok + empty of the Verifier's result on the same
rows and state (a zero-byte file counts as completed although the Verifier
calls it EMPTY), and ok + missing + empty equals the number of rows. -/
theorem completed_counts_verified (rows : List ManifestRow) (out_dir : FsPath)
    (fs : FS) :
    count_completed rows out_dir fs
      = (verify_download rows out_dir fs).1 + (verify_download rows out_dir fs).2.2
  ∧ (verify_download rows out_dir fs).1 + (verify_download rows out_dir fs).2.1
      + (verify_download rows out_dir fs).2.2 = rows.length := by
  obtain ⟨h1, h2⟩ := countP_classes out_dir fs rows
  rw [count_completed_eq, verify_download_eq]
  exact ⟨h1, h2⟩

/-- Claim C2: for every run in which the child process exits non-zero, the
orchestrator skips verification entirely (no verification result is
produced) and returns that child exit code unchanged as its own result,
even when verification was requested. -/
theorem nonzero_exit_propagated (code : Int) (h : code ≠ 0)
    (verify_after fail_on_verify : Bool) (rows : List ManifestRow)
    (out_dir : FsPath) (fs : FS) :
    finish code verify_after fail_on_verify rows out_dir fs = (code, none) := by
  simp [finish, h]

/-- Witness for C2 at child exit code 3 with verification requested. -/
theorem nonzero_exit_propagated_witness :
    finish 3 true true [⟨"a", "f.txt"⟩] ["root"] (fun _ => none) = (3, none) :=
  nonzero_exit_propagated 3 (by decide) true true [⟨"a", "f.txt"⟩] ["root"]
    (fun _ => none)

/-- Claim C3: when the child exits 0, verification and fail-on-verify were
requested, and the Verifier finds a positive missing or empty count, the
orchestrator returns the distinct documented exit code 2; when neither
count is positive, or fail-on-verify was not requested, it returns 0. -/
theorem verify_gate_exit_code (rows : List ManifestRow) (out_dir : FsPath)
    (fs : FS) (fail_on_verify : Bool) :
    ((0 < (verify_download rows out_dir fs).2.1
        ∨ 0 < (verify_download rows out_dir fs).2.2) →
       finish 0 true true rows out_dir fs
         = (2, some (verify_download rows out_dir fs)))
  ∧ (((verify_download rows out_dir fs).2.1 = 0
        ∧ (verify_download rows out_dir fs).2.2 = 0)
       ∨ fail_on_verify = false →
       (finish 0 true fail_on_verify rows out_dir fs).1 = 0) := by
  constructor
  · intro hpos
    simp [finish, hpos]
  · rintro (⟨hm, he⟩ | hfov)
    · simp [finish, hm, he]
    · simp [finish, hfov]

/-- Witness for C3: one row, nothing on disk, so missing = 1; with
fail-on-verify the exit code is 2, without it the exit code is 0. -/
theorem verify_gate_exit_code_witness :
    finish 0 true true [⟨"a", "f.txt"⟩] ["root"] (fun _ => none)
      = (2, some (0, 1, 0))
  ∧ (finish 0 true false [⟨"a", "f.txt"⟩] ["root"] (fun _ => none)).1 = 0 :=
  ⟨(verify_gate_exit_code [⟨"a", "f.txt"⟩] ["root"] (fun _ => none) true).1
      (Or.inl (by decide)),
   (verify_gate_exit_code [⟨"a", "f.txt"⟩] ["root"] (fun _ => none) false).2
      (Or.inr rfl)⟩

/-- Claim C6: the expected path is exactly output_root/id/filename (one
directory level of nesting by identifier, then the filename), and both the
completion count and the Verifier read the filesystem only through this
same path function: two states agreeing on every row's expected path give
the same completion count and the same verification counts. -/
theorem expected_path_layout (out_dir : FsPath) (i fn : String)
    (rows : List ManifestRow) (fs fs' : FS)
    (h : ∀ r ∈ rows, fs (expected_path out_dir r.id r.filename)
           = fs' (expected_path out_dir r.id r.filename)) :
    expected_path out_dir i fn = out_dir ++ [i, fn]
  ∧ count_completed rows out_dir fs = count_completed rows out_dir fs'
  ∧ verify_download rows out_dir fs = verify_download rows out_dir fs' := by
  have hcl : ∀ r ∈ rows, classify fs out_dir r = classify fs' out_dir r := by
    intro r hr
    unfold classify
    rw [h r hr]
  refine ⟨rfl, ?_, ?_⟩
  · rw [count_completed_eq, count_completed_eq]
    exact List.countP_congr fun r hr => by rw [h r hr]
  · rw [verify_download_eq, verify_download_eq]
    have cOK : rows.countP (fun r => decide (classify fs out_dir r = Status.OK))
        = rows.countP (fun r => decide (classify fs' out_dir r = Status.OK)) :=
      List.countP_congr fun r hr => by simp [hcl r hr]
    have cMISS : rows.countP
          (fun r => decide (classify fs out_dir r = Status.MISSING))
        = rows.countP (fun r => decide (classify fs' out_dir r = Status.MISSING)) :=
      List.countP_congr fun r hr => by simp [hcl r hr]
    have cEMP : rows.countP (fun r => decide (classify fs out_dir r = Status.EMPTY))
        = rows.countP (fun r => decide (classify fs' out_dir r = Status.EMPTY)) :=
      List.countP_congr fun r hr => by simp [hcl r hr]
    rw [cOK, cMISS, cEMP]

/-- Witness for C6 at a concrete layout and a concrete filesystem state. -/
theorem expected_path_layout_witness :
    expected_path ["root"] "a" "f.txt" = ["root", "a", "f.txt"]
  ∧ count_completed [⟨"a", "f.txt"⟩] ["root"] (fun _ => some 1)
      = count_completed [⟨"a", "f.txt"⟩] ["root"] (fun _ => some 1)
  ∧ verify_download [⟨"a", "f.txt"⟩] ["root"] (fun _ => some 1)
      = verify_download [⟨"a", "f.txt"⟩] ["root"] (fun _ => some 1) :=
  expected_path_layout ["root"] "a" "f.txt" [⟨"a", "f.txt"⟩] _ _ (fun _ _ => rfl)

/-- Counterexample to claim C4 as stated: a header with an extra third
column is not exactly the header the claim demands, yet parsing accepts
the manifest, because the code compares only the first two fields. -/
theorem header_extra_field_accepted :
    ("id\tfilename\tmd5" : String) ≠ "id\tfilename"
  ∧ read_manifest ["id\tfilename\tmd5", "a\tb"] = Except.ok [⟨"a", "b"⟩] :=
  ⟨by decide, rfl⟩

/-- Claim C4 (amended): parsing fails fast with a descriptive error exactly
when the first two tab-separated fields of the header line are not id and
filename in that order; header fields beyond the first two are tolerated,
and acceptance is decided by the header alone, independently of the data
rows. -/
theorem header_check_first_two_fields (lines : List String) :
    (isErr (read_manifest lines) = true ↔
       (splitTab (lines.headD "")).take 2 ≠ ["id", "filename"])
  ∧ ∀ rest rest' : List String,
      isErr (read_manifest ((lines.headD "") :: rest))
        = isErr (read_manifest ((lines.headD "") :: rest')) := by
  have hmain : ∀ ls : List String, isErr (read_manifest ls) = true ↔
      (splitTab (ls.headD "")).take 2 ≠ ["id", "filename"] := by
    intro ls
    simp only [read_manifest]
    split
    · rename_i hc
      exact iff_of_false (by simp [isErr]) (not_not_intro hc)
    · rename_i hc
      exact iff_of_true rfl hc
  refine ⟨hmain lines, ?_⟩
  intro rest rest'
  have h1 := hmain ((lines.headD "") :: rest)
  have h2 := hmain ((lines.headD "") :: rest')
  simp only [List.headD_cons] at h1 h2
  cases hb : isErr (read_manifest ((lines.headD "") :: rest)) with
  | true =>
    have := h1.mp hb
    exact (h2.mpr this).symm
  | false =>
    cases hb' : isErr (read_manifest ((lines.headD "") :: rest')) with
    | true =>
      have := h2.mp hb'
      rw [← h1] at this
      rw [hb] at this
      exact absurd this (by simp)
    | false => rfl

/-- Counterexample to claim C5 as stated: the most recent drained line
case-insensitively contains the keyword transfer, yet the rendered
progress line shows no excerpt, because the code tests for the keyword
download instead of transfer. -/
theorem transfer_keyword_shows_no_excerpt :
    strContains (strLower "Transfer rate: 5 MB/s") "transfer" = true
  ∧ tail_short "Transfer rate: 5 MB/s" = "" :=
  ⟨by decide, by decide⟩

/-- Claim C5 (amended): the rendered progress line includes a truncated
excerpt of the most recent drained line exactly when that line is nonempty
and case-insensitively contains one of the fixed keywords download, error,
retry, complete, saved, skipping; the excerpt is the line truncated to 120
characters. -/
theorem progress_excerpt_iff (tail : String) :
    ((tail = "" ∨ ∀ k ∈ interesting_keywords, strContains (strLower tail) k = false) →
       tail_short tail = "")
  ∧ (tail ≠ "" →
     (∃ k ∈ interesting_keywords, strContains (strLower tail) k = true) →
       tail_short tail = " | last: " ++ strTake tail 120
         ∧ (strTake tail 120).length ≤ 120) := by
  constructor
  · rintro (h | h)
    · simp [tail_short, h]
    · have hany : (interesting_keywords.any fun k => strContains (strLower tail) k)
          = false := by
        rw [List.any_eq_false]
        intro k hk
        simp [h k hk]
      simp [tail_short, hany]
  · intro hne hex
    have hany : (interesting_keywords.any fun k => strContains (strLower tail) k)
        = true := by
      rw [List.any_eq_true]
      obtain ⟨k, hk, hc⟩ := hex
      exact ⟨k, hk, hc⟩
    refine ⟨by simp [tail_short, hne, hany], ?_⟩
    show (tail.data.take 120).length ≤ 120
    rw [List.length_take]
    omega

/-- Witness for C5 (amended) at a drained line holding the keyword error. -/
theorem progress_excerpt_iff_witness :
    tail_short "error: boom" = " | last: " ++ strTake "error: boom" 120
  ∧ (strTake "error: boom" 120).length ≤ 120 :=
  (progress_excerpt_iff "error: boom").2 (by decide)
    ⟨"error", by decide, by decide⟩

/-- Claim C7: every manifest data line with fewer than two tab-separated
fields is skipped without raising and without affecting the parsing of the
other lines, and every data line with two or more fields yields a row from
its first two fields only, extra fields being ignored. -/
theorem malformed_rows_skipped :
    (∀ line : String, (splitTab line).length < 2 → parseLine line = none)
  ∧ (∀ (line p0 p1 : String) (rest : List String),
       splitTab line = p0 :: p1 :: rest → parseLine line = some ⟨p0, p1⟩)
  ∧ (∀ (hd bad : String) (pre post : List String),
       (splitTab bad).length < 2 →
       read_manifest (hd :: (pre ++ bad :: post))
         = read_manifest (hd :: (pre ++ post))) := by
  have h1 : ∀ line : String, (splitTab line).length < 2 → parseLine line = none := by
    intro line h
    rcases hs : splitTab line with _ | ⟨a, _ | ⟨b, t⟩⟩
    · simp [parseLine, hs]
    · simp [parseLine, hs]
    · rw [hs] at h
      simp at h
      omega
  refine ⟨h1, ?_, ?_⟩
  · intro line p0 p1 rest hs
    simp [parseLine, hs]
  · intro hd bad pre post h
    have hb := h1 bad h
    by_cases hc : (splitTab hd).take 2 = ["id", "filename"] <;>
      simp [read_manifest, hc, List.filterMap_append, List.filterMap_cons, hb]

/-- Witness for C7: a one-field line is dropped, a three-field line keeps
its first two fields, and dropping a malformed line leaves the other rows
unchanged. -/
theorem malformed_rows_skipped_witness :
    parseLine "abc" = none
  ∧ parseLine "a\tb\tc" = some ⟨"a", "b"⟩
  ∧ read_manifest ["id\tfilename", "a\tb", "zzz", "c\td"]
      = read_manifest ["id\tfilename", "a\tb", "c\td"] :=
  ⟨malformed_rows_skipped.1 "abc" (by decide),
   malformed_rows_skipped.2.1 "a\tb\tc" "a" "b" ["c"] (by decide),
   malformed_rows_skipped.2.2 "id\tfilename" "zzz" ["a\tb"] ["c\td"] (by decide)⟩

/-- Claim C8: when the manifest parses to zero rows, the run fails with a
fatal configuration error before the child process is ever spawned, and the
only side effects performed at that point are the idempotent creation of
the output and log directories. -/
theorem zero_rows_fails_before_spawn (lines : List String)
    (h : read_manifest lines = Except.ok []) :
    pre_spawn lines = ([Event.mkdirOut, Event.mkdirLog], PreSpawn.configError)
  ∧ Event.spawnChild ∉ (pre_spawn lines).1 := by
  constructor <;> simp [pre_spawn, h]

/-- Witness for C8 at a manifest holding only the header line. -/
theorem zero_rows_fails_before_spawn_witness :
    pre_spawn ["id\tfilename"]
      = ([Event.mkdirOut, Event.mkdirLog], PreSpawn.configError)
  ∧ Event.spawnChild ∉ (pre_spawn ["id\tfilename"]).1 :=
  zero_rows_fails_before_spawn ["id\tfilename"] (by rfl)

end GdcDownload
